import Mathlib

/-!
# Verification of the deja-view-game score/leaderboard server

Shallow embedding of `src/server/index.ts`: the state, score and leaderboard
request handlers over the Devvit Redis client (string get/set plus a sorted-set
abstraction).  JavaScript numbers carried by JSON bodies are modelled as
rationals (JSON cannot encode `NaN`/`Infinity`, so every number reaching the
handlers through `express.json()` is finite).  The Redis sorted set is modelled
as a list of member/score entries; range and rank queries sort ascending by
score with ties broken lexicographically by member, which is Redis's ordering.
-/

/-- A JavaScript number as it can occur in a JSON body (always finite). -/
abbrev JSNum := ℚ

/-- A JSON value, as produced by `express.json()` body parsing. -/
inductive JValue where
  | null : JValue
  | bool : Bool → JValue
  | num : JSNum → JValue
  | str : String → JValue
  | arr : List JValue → JValue
  | obj : List (String × JValue) → JValue

/-- JavaScript `typeof` on a JSON value.  `typeof null`, `typeof {}` and
`typeof []` are all `"object"` in JavaScript. -/
def jsTypeof : JValue → String
  | .null => "object"
  | .bool _ => "boolean"
  | .num _ => "number"
  | .str _ => "string"
  | .arr _ => "object"
  | .obj _ => "object"

/-- One member of a Redis sorted set. -/
structure ZEntry where
  member : String
  score : JSNum
deriving Repr, DecidableEq

/-- A Redis sorted set, as the bag of entries that have been `zAdd`ed
(each member at most once; `zadd` replaces an existing member). -/
abbrev ZSet := List ZEntry

namespace ZSet

/-- Redis's sorted-set ordering: ascending by score, ties broken by the
lexicographic order of the member strings. -/
def zle (a b : ZEntry) : Prop :=
  a.score < b.score ∨ (a.score = b.score ∧ a.member ≤ b.member)

instance : DecidableRel zle := fun a b => by
  unfold zle; infer_instance

instance : IsTotal ZEntry zle := by
  constructor
  intro a b
  rcases lt_trichotomy a.score b.score with h | h | h
  · exact Or.inl (Or.inl h)
  · rcases le_total a.member b.member with hm | hm
    · exact Or.inl (Or.inr ⟨h, hm⟩)
    · exact Or.inr (Or.inr ⟨h.symm, hm⟩)
  · exact Or.inr (Or.inl h)

instance : IsTrans ZEntry zle := by
  constructor
  intro a b c hab hbc
  rcases hab with hab | ⟨hab, hab'⟩
  · rcases hbc with hbc | ⟨hbc, _⟩
    · exact Or.inl (hab.trans hbc)
    · exact Or.inl (hbc ▸ hab)
  · rcases hbc with hbc | ⟨hbc, hbc'⟩
    · exact Or.inl (hab ▸ hbc)
    · exact Or.inr ⟨hab.trans hbc, hab'.trans hbc'⟩

/-- The entries of the set in Redis's ascending iteration order. -/
def sortedEntries (s : ZSet) : List ZEntry :=
  s.insertionSort zle

/-- Index of the first entry with the given member in a list of entries. -/
def idxOfMember (u : String) : List ZEntry → Option ℕ
  | [] => none
  | e :: rest => if e.member = u then some 0 else (idxOfMember u rest).map (· + 1)

/-- Score of the first entry with the given member in a list of entries. -/
def lookupScore (u : String) : List ZEntry → Option JSNum
  | [] => none
  | e :: rest => if e.member = u then some e.score else lookupScore u rest

/-- `redis.zScore key member`: the stored score, or `none` for a missing
member. -/
def zscore (s : ZSet) (u : String) : Option JSNum :=
  lookupScore u s

/-- `redis.zAdd key {score, member}`: add the member, replacing any existing
entry for it. -/
def zadd (s : ZSet) (u : String) (q : JSNum) : ZSet :=
  s.filter (fun e => e.member ≠ u) ++ [⟨u, q⟩]

/-- `redis.zCard key`: the number of members. -/
def zcard (s : ZSet) : ℕ :=
  s.length

/-- `redis.zRank key member`: the 0-indexed ascending rank, or `none` for a
missing member. -/
def zrank (s : ZSet) (u : String) : Option ℕ :=
  idxOfMember u (sortedEntries s)

/-- `redis.zRange key start stop`: the ascending slice between the two
0-indexed positions, both inclusive. -/
def zrange (s : ZSet) (start stop : ℕ) : List ZEntry :=
  ((sortedEntries s).drop start).take (stop + 1 - start)

end ZSet

/-! ## The persisted per-user record and the key-value store -/

/-- `StoredState` from `index.ts`: the per-post, per-user persisted record.
Optional fields of the TypeScript type are `Option`s; a JSON round trip
through `redis.get`/`redis.set` is the identity, so records are stored
directly. -/
structure StoredState where
  username : String
  bestScore : Option JSNum := none
  data : Option JValue := none
  updatedAt : Int

/-- The Redis store: sorted sets and string-valued keys (the latter always
hold serialized `StoredState` records in this server). -/
structure Store where
  zsets : String → ZSet
  states : String → Option StoredState

/-- The store with every key empty. -/
def Store.empty : Store :=
  { zsets := fun _ => [], states := fun _ => none }

/-- Overwrite one sorted set. -/
def Store.setZ (st : Store) (k : String) (s : ZSet) : Store :=
  { st with zsets := fun k' => if k' = k then s else st.zsets k' }

/-- Overwrite one stored record (`redis.set` of its JSON). -/
def Store.setState (st : Store) (k : String) (v : StoredState) : Store :=
  { st with states := fun k' => if k' = k then some v else st.states k' }

/-! ## Key derivation and identity resolution -/

/-- The wall clock a request runs under: the current UTC calendar date
(as read by `getUTCFullYear`/`getUTCMonth`+1/`getUTCDate`) and the
epoch-millisecond value `Date.now()` returns. -/
structure Clock where
  year : ℕ
  month : ℕ
  day : ℕ
  nowMs : Int

/-- `getUtcDayInteger`: the UTC day as the digits of `yyyy*10000 + mm*100 + dd`.
The source's `offsetDays` parameter defaults to `0` and every handler call
site uses the default, so the embedding models the `offsetDays = 0` path. -/
def getUtcDayInteger (c : Clock) : String :=
  toString (c.year * 10000 + c.month * 100 + c.day)

/-- ``state:${postId}:${username}`` -/
def stateKey (postId username : String) : String :=
  "state:" ++ postId ++ ":" ++ username

/-- ``lb:${postId}`` -/
def leaderboardKey (postId : String) : String :=
  "lb:" ++ postId

/-- ``lb:${postId}:${date}`` -/
def dailyLeaderboardKey (postId date : String) : String :=
  "lb:" ++ postId ++ ":" ++ date

/-- `getUsername`: `(await reddit.getCurrentUsername()) ?? "anonymous"`.
The identity provider's answer is the `Option String` argument. -/
def getUsername (identity : Option String) : String :=
  identity.getD "anonymous"

/-- An HTTP handler outcome: a 200 JSON body, or an error status with the
`error` message of the JSON error body. -/
inductive HResp (α : Type u) where
  | ok : α → HResp α
  | err : ℕ → String → HResp α

/-! ## `GET /api/state` -/

/-- The `GET /api/state` handler. -/
def apiStateGet (store : Store) (postId : Option String) (identity : Option String) :
    HResp StoredState :=
  match postId with
  | none => .err 400 "Missing postId in context"
  | some postId =>
    let username := getUsername identity
    let key := stateKey postId username
    match store.states key with
    | none => .err 404 "No state found"
    | some st => .ok st

/-! ## `POST /api/state` -/

/-- JavaScript `data === null`. -/
def isNullJ : JValue → Bool
  | .null => true
  | _ => false

/-- The body validation `data !== undefined && (typeof data !== "object" || data === null)`
(`true` = the request is rejected with 400). -/
def badDataField : Option JValue → Bool
  | none => false
  | some v => jsTypeof v != "object" || isNullJ v

/-- The `POST /api/state` handler.  `dataField` is the `data` property of the
parsed JSON body (`none` when absent); `now` is `Date.now()`.  Returns the
response and the store after the request. -/
def apiStatePost (store : Store) (postId : Option String) (identity : Option String)
    (dataField : Option JValue) (now : Int) : HResp StoredState × Store :=
  match postId with
  | none => (.err 400 "Missing postId in context", store)
  | some postId =>
    let username := getUsername identity
    if username = "anonymous" then (.err 401 "Login required", store)
    else if badDataField dataField then (.err 400 "data must be an object", store)
    else
      let key := stateKey postId username
      let prev := store.states key
      let next : StoredState :=
        { username := username
          updatedAt := now
          data := match dataField with
            | some v => some v
            | none => prev.bind (·.data)
          bestScore := prev.bind (·.bestScore) }
      (.ok next, store.setState key next)

/-! ## `POST /api/score` -/

/-- The `score` property of the body as a valid score: `some q` exactly when
the value passes `typeof score === "number" && Number.isFinite(score)`
(a JSON body can only carry finite numbers). -/
def numValue : Option JValue → Option JSNum
  | some (.num q) => some q
  | _ => none

/-- The own enumerable properties JavaScript's object spread `{...v}` copies:
an object's fields, an array's elements under their index keys, nothing for
primitives and `null`. -/
def spreadProps : JValue → List (String × JValue)
  | .obj fs => fs
  | .arr xs => xs.enum.map (fun p => (toString p.1, p.2))
  | _ => []

/-- `{...fs, k: v}`: overwrite property `k` in place when present, else
append it. -/
def setProp (fs : List (String × JValue)) (k : String) (v : JValue) :
    List (String × JValue) :=
  if fs.any (fun p => p.1 = k) then fs.map (fun p => if p.1 = k then (k, v) else p)
  else fs ++ [(k, v)]

/-- The JSON body of a successful `POST /api/score` response. -/
structure ScoreOut where
  success : Bool
  score : JSNum
  rank : Int
  totalPlayers : ℕ
  isNewBest : Bool
  updatedAt : Int
  dateBucket : String
deriving Repr, DecidableEq

/-- The `POST /api/score` handler.  `scoreField` is the `score` property of
the parsed JSON body (`none` when absent). -/
def apiScorePost (store : Store) (postId : Option String) (identity : Option String)
    (scoreField : Option JValue) (clock : Clock) : HResp ScoreOut × Store :=
  match postId with
  | none => (.err 400 "Missing postId", store)
  | some postId =>
    let username := getUsername identity
    if username = "anonymous" then (.err 401 "Login required", store)
    else
      match numValue scoreField with
      | none => (.err 400 "Invalid score", store)
      | some score =>
        let sanitized := max 0 (min score 1000000000)
        let lbKey := leaderboardKey postId
        let dateBucket := getUtcDayInteger clock
        let dailyKey := dailyLeaderboardKey postId dateBucket
        -- 1. old scores, both read before either write (`Promise.all`)
        let globalScore := ((store.zsets lbKey).zscore username).getD (-1)
        let dailyScore := ((store.zsets dailyKey).zscore username).getD (-1)
        -- 2. best scores
        let bestGlobal := max globalScore sanitized
        let bestDaily := max dailyScore sanitized
        let isNewBestGlobal := decide (globalScore < sanitized)
        -- 3. update both leaderboards
        let g := (store.zsets lbKey).zadd username bestGlobal
        let d := (store.zsets dailyKey).zadd username bestDaily
        let store₁ := (store.setZ lbKey g).setZ dailyKey d
        -- 4. mirror into the stored state
        let sKey := stateKey postId username
        let prev := store₁.states sKey
        let next : StoredState :=
          { username := username
            updatedAt := clock.nowMs
            bestScore := some bestGlobal
            data := some (.obj (setProp
              (spreadProps ((prev.bind (·.data)).getD (.obj []))) "date"
              (.str dateBucket))) }
        let store₂ := store₁.setState sKey next
        -- 5. rank against the (updated) global set
        let ascRank := (store₂.zsets lbKey).zrank username
        let totalPlayers := (store₂.zsets lbKey).zcard
        let rank : Int := match ascRank with
          | some r => (totalPlayers : Int) - (r : Int)
          | none => 0
        (.ok { success := true
               score := bestGlobal
               rank := rank
               totalPlayers := totalPlayers
               isNewBest := isNewBestGlobal
               updatedAt := clock.nowMs
               dateBucket := dateBucket }, store₂)

/-! ## `GET /api/leaderboard` -/

/-- One element of the `top` array of a leaderboard response. -/
structure TopEntry where
  rank : ℕ
  username : String
  score : JSNum
  date : String
deriving Repr, DecidableEq

/-- The caller's own entry (`me`) of a leaderboard response. -/
structure MeEntry where
  rank : Int
  username : String
  score : JSNum
  date : String
deriving Repr, DecidableEq

/-- The JSON body of a successful `GET /api/leaderboard` response. -/
structure LeaderboardOut where
  top : List TopEntry
  me : Option MeEntry
  totalPlayers : ℕ
  generatedAt : Int
  filterDate : String
deriving Repr, DecidableEq

/-- The `GET /api/leaderboard` handler.  `limitParam` is
`Number(req.query.limit ?? 10)` when that value is a finite integer (`none`
models the non-finite fallback, which yields the default 10; the handlers
under verification are never exercised at fractional limits). -/
def apiLeaderboardGet (store : Store) (postId : Option String) (identity : Option String)
    (limitParam : Option Int) (dateParam : Option String) (clock : Clock) :
    HResp LeaderboardOut :=
  match postId with
  | none => .err 400 "Missing postId in context"
  | some postId =>
    let username := getUsername identity
    let limit : Int := match limitParam with
      | some n => max 1 (min n 100)
      | none => 10
    let effectiveDate := dateParam.getD (getUtcDayInteger clock)
    let lbKey := dailyLeaderboardKey postId effectiveDate
    -- ascending slice 0 .. limit-1 of the daily zset
    let entries := (store.zsets lbKey).zrange 0 (limit.toNat - 1)
    let top : List TopEntry := entries.enum.map (fun p =>
      { rank := p.1 + 1
        username := p.2.member
        score := p.2.score
        date := effectiveDate })
    -- caller's rank in this specific daily leaderboard
    let ascRank := (store.zsets lbKey).zrank username
    let total := (store.zsets lbKey).zcard
    let meRank0 : Option Int := match ascRank with
      | some r => if total ≠ 0 then some ((total : Int) - 1 - (r : Int)) else some (r : Int)
      | none => none
    let me : Option MeEntry := meRank0.map (fun r0 =>
      { rank := r0 + 1
        username := username
        score := ((store.zsets lbKey).zscore username).getD 0
        date := effectiveDate })
    .ok { top := top
          me := me
          totalPlayers := total
          generatedAt := clock.nowMs
          filterDate := effectiveDate }

/-! ## Demonstration runs

The worked example of the specification: on post `p1`, on UTC day 2024-05-03,
alice submits 500 and then bob submits 700. -/

/-- 2024-05-03 UTC, with `Date.now()` = 1000. -/
def demoClock : Clock :=
  { year := 2024, month := 5, day := 3, nowMs := 1000 }

/-- The next UTC day, 2024-05-04. -/
def demoClockNext : Clock :=
  { year := 2024, month := 5, day := 4, nowMs := 2000 }

/-- The store after alice submits 500 to post `p1` on 2024-05-03. -/
def demoStore₁ : Store :=
  (apiScorePost Store.empty (some "p1") (some "alice") (some (.num 500)) demoClock).2

/-- … and after bob then submits 700 on the same day. -/
def demoStore₂ : Store :=
  (apiScorePost demoStore₁ (some "p1") (some "bob") (some (.num 700)) demoClock).2

/-! ## Key-distinctness facts -/

/-- The global key `lb:p` never collides with a daily key `lb:p:d`. -/
theorem leaderboardKey_ne_dailyLeaderboardKey (p d : String) :
    leaderboardKey p ≠ dailyLeaderboardKey p d := by
  intro h
  have hlen := congrArg String.length h
  have h3 : ("lb:" : String).length = 3 := rfl
  have h1 : (":" : String).length = 1 := rfl
  simp only [leaderboardKey, dailyLeaderboardKey, String.length_append, h3, h1] at hlen
  omega

/-- Daily keys for the same post and different day labels are distinct. -/
theorem dailyLeaderboardKey_inj (p : String) {d d' : String} (h : d ≠ d') :
    dailyLeaderboardKey p d ≠ dailyLeaderboardKey p d' := by
  intro hk
  apply h
  have := congrArg String.data hk
  simp only [dailyLeaderboardKey, String.data_append] at this
  exact String.ext (List.append_cancel_left this)

namespace ZSet

/-! ## Lookup lemmas -/

theorem lookupScore_eq_none_iff (u : String) (l : List ZEntry) :
    lookupScore u l = none ↔ ∀ e ∈ l, e.member ≠ u := by
  induction l with
  | nil => simp [lookupScore]
  | cons e rest ih =>
    by_cases he : e.member = u
    · simp [lookupScore, he]
    · simp [lookupScore, he, ih]

theorem lookupScore_append_of_eq_none {u : String} {l₁ : List ZEntry} (l₂ : List ZEntry)
    (h : lookupScore u l₁ = none) :
    lookupScore u (l₁ ++ l₂) = lookupScore u l₂ := by
  induction l₁ with
  | nil => rfl
  | cons e rest ih =>
    by_cases he : e.member = u
    · simp [lookupScore, he] at h
    · rw [List.cons_append]
      simp only [lookupScore, he, if_false] at h ⊢
      exact ih h

theorem lookupScore_filter_ne (s : List ZEntry) (u : String) :
    lookupScore u (s.filter (fun e => e.member ≠ u)) = none := by
  rw [lookupScore_eq_none_iff]
  intro e he
  have := List.of_mem_filter he
  simpa using this

/-- After `zadd`, the added member's stored score is the added score. -/
theorem zscore_zadd_self (s : ZSet) (u : String) (q : JSNum) :
    (s.zadd u q).zscore u = some q := by
  unfold zadd zscore
  rw [lookupScore_append_of_eq_none _ (lookupScore_filter_ne s u)]
  simp [lookupScore]

/-- A member is absent from a set exactly when no entry carries it. -/
theorem zscore_eq_none_iff (s : ZSet) (u : String) :
    s.zscore u = none ↔ ∀ e ∈ s, e.member ≠ u :=
  lookupScore_eq_none_iff u s

/-! ## Rank lemmas -/

theorem idxOfMember_eq_none_iff (u : String) (l : List ZEntry) :
    idxOfMember u l = none ↔ ∀ e ∈ l, e.member ≠ u := by
  induction l with
  | nil => simp [idxOfMember]
  | cons e rest ih =>
    by_cases he : e.member = u
    · simp [idxOfMember, he]
    · simp [idxOfMember, he, ih]

theorem mem_sortedEntries_iff {s : ZSet} {e : ZEntry} :
    e ∈ sortedEntries s ↔ e ∈ s :=
  List.mem_insertionSort zle

theorem length_sortedEntries (s : ZSet) : (sortedEntries s).length = s.length :=
  List.length_insertionSort zle s

/-- No rank exactly when no entry carries the member. -/
theorem zrank_eq_none_iff (s : ZSet) (u : String) :
    s.zrank u = none ↔ ∀ e ∈ s, e.member ≠ u := by
  unfold zrank
  rw [idxOfMember_eq_none_iff]
  constructor
  · intro h e he
    exact h e (mem_sortedEntries_iff.mpr he)
  · intro h e he
    exact h e (mem_sortedEntries_iff.mp he)

/-- `zRank` and `zScore` agree on membership. -/
theorem zrank_eq_none_iff_zscore_eq_none (s : ZSet) (u : String) :
    s.zrank u = none ↔ s.zscore u = none := by
  rw [zrank_eq_none_iff, zscore_eq_none_iff]


/-- Number of entries carrying a given member. -/
def memberCount (u : String) : List ZEntry → ℕ
  | [] => 0
  | e :: rest => (if e.member = u then 1 else 0) + memberCount u rest

theorem memberCount_perm {u : String} {l₁ l₂ : List ZEntry} (h : l₁.Perm l₂) :
    memberCount u l₁ = memberCount u l₂ := by
  induction h with
  | nil => rfl
  | cons x _ ih => simp [memberCount, ih]
  | swap x y l =>
    by_cases hx : x.member = u <;> by_cases hy : y.member = u <;>
      simp [memberCount, hx, hy]
  | trans _ _ ih₁ ih₂ => exact ih₁.trans ih₂

theorem memberCount_append (u : String) (l₁ l₂ : List ZEntry) :
    memberCount u (l₁ ++ l₂) = memberCount u l₁ + memberCount u l₂ := by
  induction l₁ with
  | nil => simp [memberCount]
  | cons e rest ih => simp [memberCount, ih]; omega

theorem memberCount_eq_zero_of_all_ne {u : String} {l : List ZEntry}
    (h : ∀ e ∈ l, e.member ≠ u) : memberCount u l = 0 := by
  induction l with
  | nil => rfl
  | cons e rest ih =>
    have he := h e (List.mem_cons_self e rest)
    simp only [memberCount, if_neg he, Nat.zero_add]
    exact ih (fun e' he' => h e' (List.mem_cons_of_mem e he'))

/-- In a sorted entry list where member `u` occurs exactly once, its entry
scores `q`, and every other entry scores strictly below `q`, the `u` entry
sits at the last index. -/
theorem idxOfMember_eq_last (u : String) (q : JSNum) (l : List ZEntry)
    (hs : l.Sorted zle)
    (hcnt : memberCount u l = 1)
    (hq : ∀ e ∈ l, e.member = u → e.score = q)
    (hmax : ∀ e ∈ l, e.member ≠ u → e.score < q) :
    idxOfMember u l = some (l.length - 1) := by
  induction l with
  | nil => exact absurd hcnt (by simp [memberCount])
  | cons a rest ih =>
    by_cases ha : a.member = u
    · have hrest0 : memberCount u rest = 0 := by
        simp only [memberCount, if_pos ha] at hcnt
        omega
      have hnil : rest = [] := by
        cases hrest : rest with
        | nil => rfl
        | cons b tl =>
          exfalso
          have hbmem : b ∈ rest := by rw [hrest]; exact List.mem_cons_self b tl
          have hbne : b.member ≠ u := by
            intro hbu
            have : memberCount u rest ≠ 0 := by
              rw [hrest]
              simp [memberCount, hbu]
            exact this hrest0
          have hblt : b.score < q := hmax b (List.mem_cons_of_mem a hbmem) hbne
          have haq : a.score = q := hq a (List.mem_cons_self a rest) ha
          have hab : zle a b := (List.sorted_cons.mp hs).1 b hbmem
          rcases hab with h | ⟨h, _⟩
          · rw [haq] at h
            exact absurd h (not_lt.mpr hblt.le)
          · rw [haq] at h
            exact absurd h.symm (ne_of_lt hblt)
      subst hnil
      simp [idxOfMember, ha]
    · have hrest1 : memberCount u rest = 1 := by
        simpa only [memberCount, if_neg ha, Nat.zero_add] using hcnt
      have hlen : 1 ≤ rest.length := by
        cases hrest : rest with
        | nil => rw [hrest] at hrest1; exact absurd hrest1 (by simp [memberCount])
        | cons _ _ => simp
      have hrec := ih (List.sorted_cons.mp hs).2 hrest1
        (fun e he hm => hq e (List.mem_cons_of_mem a he) hm)
        (fun e he hm => hmax e (List.mem_cons_of_mem a he) hm)
      rw [idxOfMember, if_neg ha, hrec]
      show some (rest.length - 1 + 1) = some (rest.length + 1 - 1)
      congr 1
      omega

/-- `zadd` leaves exactly one entry for the added member. -/
theorem memberCount_zadd_self (s : ZSet) (u : String) (q : JSNum) :
    memberCount u (s.zadd u q) = 1 := by
  unfold zadd
  rw [memberCount_append]
  have h0 : memberCount u (s.filter (fun e => e.member ≠ u)) = 0 := by
    apply memberCount_eq_zero_of_all_ne
    intro e he
    simpa using List.of_mem_filter he
  rw [h0]
  simp [memberCount]

/-- The added member is always ranked after `zadd`. -/
theorem zrank_zadd_isSome (s : ZSet) (u : String) (q : JSNum) :
    ∃ r, (s.zadd u q).zrank u = some r := by
  cases h : (s.zadd u q).zrank u with
  | some r => exact ⟨r, rfl⟩
  | none =>
    rw [zrank_eq_none_iff] at h
    have hmem : (⟨u, q⟩ : ZEntry) ∈ s.zadd u q := by
      unfold zadd; simp
    exact absurd rfl (h _ hmem)

/-- If the score added for `u` strictly beats every other member of the set,
`u`'s ascending rank after the `zadd` is the last index. -/
theorem zrank_zadd_of_strict_max (s : ZSet) (u : String) (q : JSNum)
    (hmax : ∀ e ∈ s, e.member ≠ u → e.score < q) :
    (s.zadd u q).zrank u = some ((s.zadd u q).zcard - 1) := by
  have hlen : (s.zadd u q).zcard = (sortedEntries (s.zadd u q)).length :=
    (length_sortedEntries _).symm
  rw [zrank, hlen]
  apply idxOfMember_eq_last u q
  · exact List.sorted_insertionSort zle _
  · show memberCount u (List.insertionSort zle (s.zadd u q)) = 1
    rw [memberCount_perm (List.perm_insertionSort zle (s.zadd u q))]
    exact memberCount_zadd_self s u q
  · intro e he hm
    rcases List.mem_append.mp (mem_sortedEntries_iff.mp he) with hf | hl
    · exact absurd hm (by simpa using List.of_mem_filter hf)
    · simp only [List.mem_singleton] at hl
      rw [hl]
  · intro e he hm
    rcases List.mem_append.mp (mem_sortedEntries_iff.mp he) with hf | hl
    · exact hmax e (List.mem_of_mem_filter hf) hm
    · simp only [List.mem_singleton] at hl
      rw [hl] at hm
      exact absurd rfl hm

/-- A ranked member implies a non-empty set. -/
theorem zcard_pos_of_zrank {s : ZSet} {u : String} {r : ℕ}
    (h : s.zrank u = some r) : 0 < s.zcard := by
  cases s with
  | nil => exact absurd h (by rw [zrank]; exact fun hh => by cases hh)
  | cons e rest => exact Nat.succ_pos rest.length

/-- An ascending rank is an index into the sorted entries, so it is below the
cardinality. -/
theorem zrank_lt_zcard {s : ZSet} {u : String} {r : ℕ}
    (h : s.zrank u = some r) : r < s.zcard := by
  rw [zrank] at h
  rw [show s.zcard = (sortedEntries s).length from (length_sortedEntries s).symm]
  generalize hl : sortedEntries s = l at h
  clear hl
  induction l generalizing r with
  | nil => exact absurd h (by rw [idxOfMember]; exact fun hh => by cases hh)
  | cons e rest ih =>
    by_cases he : e.member = u
    · rw [idxOfMember, if_pos he] at h
      simp only [Option.some_inj] at h
      simp only [List.length_cons]
      omega
    · rw [idxOfMember, if_neg he] at h
      cases hr : idxOfMember u rest with
      | none => rw [hr] at h; exact Option.noConfusion h
      | some r' =>
        rw [hr] at h
        have h2 : r' + 1 = r := Option.some_inj.mp h
        have := ih hr
        simp only [List.length_cons]
        omega

/-- Entries of a range query are entries of the set. -/
theorem mem_of_mem_zrange {s : ZSet} {a b : ℕ} {e : ZEntry}
    (h : e ∈ s.zrange a b) : e ∈ s := by
  rw [zrange] at h
  exact mem_sortedEntries_iff.mp (List.mem_of_mem_drop (List.mem_of_mem_take h))

end ZSet

/-! ## Store projection lemmas -/

@[simp] theorem Store.zsets_setState (st : Store) (k : String) (v : StoredState) :
    (st.setState k v).zsets = st.zsets := rfl

@[simp] theorem Store.states_setZ (st : Store) (k : String) (s : ZSet) :
    (st.setZ k s).states = st.states := rfl

theorem Store.zsets_setZ (st : Store) (k k' : String) (s : ZSet) :
    (st.setZ k s).zsets k' = if k' = k then s else st.zsets k' := rfl

theorem Store.states_setState (st : Store) (k k' : String) (v : StoredState) :
    (st.setState k v).states k' = if k' = k then some v else st.states k' := rfl

/-! ## Success-path unfoldings of the write handlers -/

/-- The success path of `POST /api/state`, written out. -/
theorem apiStatePost_eq (store : Store) (p u : String) (dataField : Option JValue)
    (now : Int) (hu : u ≠ "anonymous") (hgood : badDataField dataField = false) :
    apiStatePost store (some p) (some u) dataField now =
      (HResp.ok
        { username := u
          updatedAt := now
          data := match dataField with
            | some v => some v
            | none => (store.states (stateKey p u)).bind (·.data)
          bestScore := (store.states (stateKey p u)).bind (·.bestScore) },
       store.setState (stateKey p u)
        { username := u
          updatedAt := now
          data := match dataField with
            | some v => some v
            | none => (store.states (stateKey p u)).bind (·.data)
          bestScore := (store.states (stateKey p u)).bind (·.bestScore) }) := by
  cases dataField with
  | none =>
    simp only [apiStatePost, getUsername, Option.getD]
    rw [if_neg hu, if_neg (by simp [hgood])]
  | some v =>
    simp only [apiStatePost, getUsername, Option.getD]
    rw [if_neg hu, if_neg (by simp [hgood])]

/-- The success path of `POST /api/score`, written out: both sorted sets are
upserted with the max of the previous and the sanitized score, the state
record is mirrored, and rank/cardinality are taken from the updated global
set. -/
theorem apiScorePost_eq (store : Store) (p u : String) (q : JSNum) (c : Clock)
    (hu : u ≠ "anonymous") :
    apiScorePost store (some p) (some u) (some (.num q)) c =
      (HResp.ok
        { success := true
          score := max (((store.zsets (leaderboardKey p)).zscore u).getD (-1))
                       (max 0 (min q 1000000000))
          rank := match (((store.zsets (leaderboardKey p)).zadd u
              (max (((store.zsets (leaderboardKey p)).zscore u).getD (-1))
                   (max 0 (min q 1000000000)))).zrank u) with
            | some r => ((((store.zsets (leaderboardKey p)).zadd u
                (max (((store.zsets (leaderboardKey p)).zscore u).getD (-1))
                     (max 0 (min q 1000000000)))).zcard : Int)) - (r : Int)
            | none => 0
          totalPlayers := ((store.zsets (leaderboardKey p)).zadd u
              (max (((store.zsets (leaderboardKey p)).zscore u).getD (-1))
                   (max 0 (min q 1000000000)))).zcard
          isNewBest := decide ((((store.zsets (leaderboardKey p)).zscore u).getD (-1)) <
              max 0 (min q 1000000000))
          updatedAt := c.nowMs
          dateBucket := getUtcDayInteger c },
       ((store.setZ (leaderboardKey p)
            ((store.zsets (leaderboardKey p)).zadd u
              (max (((store.zsets (leaderboardKey p)).zscore u).getD (-1))
                   (max 0 (min q 1000000000))))).setZ
          (dailyLeaderboardKey p (getUtcDayInteger c))
          ((store.zsets (dailyLeaderboardKey p (getUtcDayInteger c))).zadd u
            (max (((store.zsets (dailyLeaderboardKey p (getUtcDayInteger c))).zscore u).getD (-1))
                 (max 0 (min q 1000000000))))).setState (stateKey p u)
        { username := u
          updatedAt := c.nowMs
          bestScore := some (max (((store.zsets (leaderboardKey p)).zscore u).getD (-1))
              (max 0 (min q 1000000000)))
          data := some (.obj (setProp
            (spreadProps (((store.states (stateKey p u)).bind (·.data)).getD (.obj [])))
            "date" (.str (getUtcDayInteger c)))) }) := by
  have hne : leaderboardKey p ≠ dailyLeaderboardKey p (getUtcDayInteger c) :=
    leaderboardKey_ne_dailyLeaderboardKey p _
  simp only [apiScorePost, getUsername, Option.getD]
  rw [if_neg hu]
  simp only [numValue, Store.zsets_setState, Store.states_setZ, Store.zsets_setZ, hne,
    if_false, eq_self_iff_true, if_true]

/-- After the two `zAdd`s and the state mirror of a submit, the first updated
set is read back unchanged when the two sorted-set keys differ. -/
theorem Store.zsets_submit_fst (st : Store) (k dk sk : String) (g d : ZSet)
    (v : StoredState) (hne : k ≠ dk) :
    (((st.setZ k g).setZ dk d).setState sk v).zsets k = g := by
  simp [Store.zsets_setState, Store.zsets_setZ, hne]

/-- … the second updated set is always read back unchanged. -/
theorem Store.zsets_submit_snd (st : Store) (k dk sk : String) (g d : ZSet)
    (v : StoredState) :
    (((st.setZ k g).setZ dk d).setState sk v).zsets dk = d := by
  simp [Store.zsets_setState, Store.zsets_setZ]

/-- … and every other sorted set is untouched. -/
theorem Store.zsets_submit_other (st : Store) (k dk sk k' : String) (g d : ZSet)
    (v : StoredState) (h1 : k' ≠ k) (h2 : k' ≠ dk) :
    (((st.setZ k g).setZ dk d).setState sk v).zsets k' = st.zsets k' := by
  simp [Store.zsets_setState, Store.zsets_setZ, h1, h2]

/-- … the mirrored state record is read back. -/
theorem Store.states_submit (st : Store) (k dk sk : String) (g d : ZSet)
    (v : StoredState) :
    (((st.setZ k g).setZ dk d).setState sk v).states sk = some v := by
  simp [Store.states_setState, Store.states_setZ]

/-! ## Claims -/

/-- **C2.** For every valid submitted score `q ≥ 0`, after a successful
`POST /api/score` the score stored for the user in the global sorted set is
`max(previous global best, clamp(q, 0, 1e9))`, an absent previous record
counting as −1; in particular, the stored best never decreases across
submissions. -/
theorem submit_stores_max_global (store : Store) (p u : String) (q : JSNum) (c : Clock)
    (out : ScoreOut) (store' : Store)
    (hu : u ≠ "anonymous") (hq : 0 ≤ q)
    (hrun : apiScorePost store (some p) (some u) (some (.num q)) c = (.ok out, store')) :
    (store'.zsets (leaderboardKey p)).zscore u =
      some (max (((store.zsets (leaderboardKey p)).zscore u).getD (-1))
                (max 0 (min q 1000000000))) ∧
    ∀ s₀, (store.zsets (leaderboardKey p)).zscore u = some s₀ →
      ∃ s₁, (store'.zsets (leaderboardKey p)).zscore u = some s₁ ∧ s₀ ≤ s₁ := by
  rw [apiScorePost_eq store p u q c hu] at hrun
  injection hrun with h1 h2
  subst h2
  have hne : leaderboardKey p ≠ dailyLeaderboardKey p (getUtcDayInteger c) :=
    leaderboardKey_ne_dailyLeaderboardKey p _
  rw [Store.zsets_submit_fst _ _ _ _ _ _ _ hne]
  constructor
  · exact ZSet.zscore_zadd_self _ _ _
  · intro s₀ hs₀
    refine ⟨max (((store.zsets (leaderboardKey p)).zscore u).getD (-1))
              (max 0 (min q 1000000000)), ZSet.zscore_zadd_self _ _ _, ?_⟩
    rw [hs₀]
    exact le_max_left _ _

/-- **C3.** `isNewBest` in a successful submit response is true exactly when
the sanitized score strictly exceeds the prior global best (absent prior
treated as −1, ties giving false), so a first-ever valid submission always
reports `isNewBest = true`. -/
theorem submit_isNewBest_iff (store : Store) (p u : String) (q : JSNum) (c : Clock)
    (out : ScoreOut) (store' : Store)
    (hu : u ≠ "anonymous")
    (hrun : apiScorePost store (some p) (some u) (some (.num q)) c = (.ok out, store')) :
    (out.isNewBest = true ↔
      ((store.zsets (leaderboardKey p)).zscore u).getD (-1) < max 0 (min q 1000000000)) ∧
    ((store.zsets (leaderboardKey p)).zscore u = none → out.isNewBest = true) := by
  rw [apiScorePost_eq store p u q c hu] at hrun
  injection hrun with h1 h2
  injection h1 with h1
  subst h1
  constructor
  · exact decide_eq_true_iff
  · intro habs
    have hlt : ((store.zsets (leaderboardKey p)).zscore u).getD (-1) <
        max 0 (min q 1000000000) := by
      rw [habs]
      have h0 : ((none : Option JSNum).getD (-1)) = -1 := rfl
      rw [h0]
      have hneg : (-1 : JSNum) < 0 := by norm_num
      exact lt_of_lt_of_le hneg (le_max_left _ _)
    exact decide_eq_true hlt

/-- **C8.** The rank a successful submit returns is the descending rank
`totalPlayers − ascendingRank` over the updated global set, and it equals 1
when the submitting user's stored score strictly exceeds every other
member's score. -/
theorem submit_rank_desc (store : Store) (p u : String) (q : JSNum) (c : Clock)
    (out : ScoreOut) (store' : Store)
    (hu : u ≠ "anonymous")
    (hrun : apiScorePost store (some p) (some u) (some (.num q)) c = (.ok out, store')) :
    (∃ r, (store'.zsets (leaderboardKey p)).zrank u = some r ∧
        out.totalPlayers = (store'.zsets (leaderboardKey p)).zcard ∧
        out.rank = (out.totalPlayers : Int) - (r : Int)) ∧
    ((∀ e ∈ store.zsets (leaderboardKey p), e.member ≠ u → e.score < out.score) →
        out.rank = 1) := by
  rw [apiScorePost_eq store p u q c hu] at hrun
  injection hrun with h1 h2
  injection h1 with h1
  subst h1
  subst h2
  have hne : leaderboardKey p ≠ dailyLeaderboardKey p (getUtcDayInteger c) :=
    leaderboardKey_ne_dailyLeaderboardKey p _
  rw [Store.zsets_submit_fst _ _ _ _ _ _ _ hne]
  constructor
  · obtain ⟨r, hr⟩ := ZSet.zrank_zadd_isSome (store.zsets (leaderboardKey p)) u
      (max (((store.zsets (leaderboardKey p)).zscore u).getD (-1)) (max 0 (min q 1000000000)))
    refine ⟨r, hr, rfl, ?_⟩
    dsimp only
    rw [hr]
  · intro hmax
    have hr := ZSet.zrank_zadd_of_strict_max (store.zsets (leaderboardKey p)) u
      (max (((store.zsets (leaderboardKey p)).zscore u).getD (-1)) (max 0 (min q 1000000000)))
      (fun e he hm => hmax e he hm)
    have hpos : 0 < ((store.zsets (leaderboardKey p)).zadd u
        (max (((store.zsets (leaderboardKey p)).zscore u).getD (-1))
             (max 0 (min q 1000000000)))).zcard := ZSet.zcard_pos_of_zrank hr
    dsimp only
    rw [hr]
    generalize ((store.zsets (leaderboardKey p)).zadd u
        (max (((store.zsets (leaderboardKey p)).zscore u).getD (-1))
             (max 0 (min q 1000000000)))).zcard = n at hpos ⊢
    show (n : Int) - ((n - 1 : ℕ) : Int) = 1
    omega

/-- `getUsername` of a present identity is that identity. -/
theorem getUsername_some (u : String) : getUsername (some u) = u := rfl

/-- **C6.** `totalPlayers` in the submit response is the cardinality of the
global set (after the submission's update), while `totalPlayers` in the
leaderboard response is the cardinality of the resolved daily set. -/
theorem totalPlayers_scopes (store : Store) (p u : String) (q : JSNum) (c : Clock)
    (out : ScoreOut) (store' : Store)
    (store₂ : Store) (p₂ : String) (idn₂ : Option String) (limitP : Option Int)
    (dateP : Option String) (c₂ : Clock) (lout : LeaderboardOut)
    (hu : u ≠ "anonymous")
    (hrun : apiScorePost store (some p) (some u) (some (.num q)) c = (.ok out, store'))
    (hrun₂ : apiLeaderboardGet store₂ (some p₂) idn₂ limitP dateP c₂ = .ok lout) :
    out.totalPlayers = (store'.zsets (leaderboardKey p)).zcard ∧
    lout.totalPlayers =
      (store₂.zsets (dailyLeaderboardKey p₂ (dateP.getD (getUtcDayInteger c₂)))).zcard := by
  constructor
  · rw [apiScorePost_eq store p u q c hu] at hrun
    injection hrun with h1 h2
    injection h1 with h1
    subst h1
    subst h2
    rw [Store.zsets_submit_fst _ _ _ _ _ _ _ (leaderboardKey_ne_dailyLeaderboardKey p _)]
  · simp only [apiLeaderboardGet] at hrun₂
    injection hrun₂ with h
    subst h
    rfl

/-- The caller's-entry computation of the leaderboard handler, evaluated when
the caller is ranked: the 0-indexed descending rank is `total − 1 − ascending`,
1-indexed by the `+ 1`. -/
theorem me_compute_some (S : ZSet) (u d : String) (r : ℕ)
    (hzr : S.zrank u = some r) :
    ((match S.zrank u with
        | some r => if S.zcard ≠ 0 then some ((S.zcard : Int) - 1 - (r : Int))
                    else some ((r : Int))
        | none => none).map (fun r0 =>
          ({ rank := r0 + 1
             username := u
             score := (S.zscore u).getD 0
             date := d } : MeEntry))) =
      some { rank := (S.zcard : Int) - (r : Int)
             username := u
             score := (S.zscore u).getD 0
             date := d } := by
  have htot : S.zcard ≠ 0 := (ZSet.zcard_pos_of_zrank hzr).ne'
  rw [hzr]
  show (if S.zcard ≠ 0 then some ((S.zcard : Int) - 1 - (r : Int))
        else some ((r : Int))).map _ = _
  rw [if_pos htot]
  show some ({ rank := ((S.zcard : Int) - 1 - (r : Int)) + 1
               username := u
               score := (S.zscore u).getD 0
               date := d } : MeEntry) = _
  have harith : ((S.zcard : Int) - 1 - (r : Int)) + 1 = (S.zcard : Int) - (r : Int) := by
    ring
  rw [harith]

/-- The caller's-entry computation when the caller is unranked: `null`. -/
theorem me_compute_none (S : ZSet) (u d : String)
    (hzr : S.zrank u = none) :
    ((match S.zrank u with
        | some r => if S.zcard ≠ 0 then some ((S.zcard : Int) - 1 - (r : Int))
                    else some ((r : Int))
        | none => none).map (fun r0 =>
          ({ rank := r0 + 1
             username := u
             score := (S.zscore u).getD 0
             date := d } : MeEntry))) = none := by
  rw [hzr]
  exact rfl

/-- **C7.** In the leaderboard query, `me` is null exactly when the caller has
no member in the resolved daily set; otherwise `me` carries the 1-indexed
descending rank `total − ascendingRank` and the caller's stored score in that
set. -/
theorem lb_me_rank (store : Store) (p u : String) (limitP : Option Int)
    (dateP : Option String) (c : Clock) (lout : LeaderboardOut)
    (hrun : apiLeaderboardGet store (some p) (some u) limitP dateP c = .ok lout) :
    (lout.me = none ↔
      (store.zsets (dailyLeaderboardKey p (dateP.getD (getUtcDayInteger c)))).zscore u =
        none) ∧
    (∀ r, (store.zsets (dailyLeaderboardKey p (dateP.getD (getUtcDayInteger c)))).zrank u =
        some r →
      lout.me = some
        { rank := ((store.zsets
              (dailyLeaderboardKey p (dateP.getD (getUtcDayInteger c)))).zcard : Int) -
            (r : Int)
          username := u
          score := ((store.zsets
              (dailyLeaderboardKey p (dateP.getD (getUtcDayInteger c)))).zscore u).getD 0
          date := dateP.getD (getUtcDayInteger c) } ∧
      ∀ s, (store.zsets (dailyLeaderboardKey p (dateP.getD (getUtcDayInteger c)))).zscore u =
          some s →
        ((store.zsets (dailyLeaderboardKey p (dateP.getD (getUtcDayInteger c)))).zscore
            u).getD 0 = s) := by
  simp only [apiLeaderboardGet, getUsername_some] at hrun
  injection hrun with h
  subst h
  constructor
  · dsimp only
    cases hzr : (store.zsets (dailyLeaderboardKey p (dateP.getD (getUtcDayInteger c)))).zrank u with
    | none =>
      apply iff_of_true
      · exact rfl
      · exact (ZSet.zrank_eq_none_iff_zscore_eq_none _ _).mp hzr
    | some r =>
      apply iff_of_false
      · intro h
        dsimp only at h
        by_cases ht : (store.zsets (dailyLeaderboardKey p (dateP.getD (getUtcDayInteger c)))).zcard ≠ 0
        · rw [if_pos ht] at h
          exact Option.noConfusion h
        · rw [if_neg ht] at h
          exact Option.noConfusion h
      · intro h
        have h2 := (ZSet.zrank_eq_none_iff_zscore_eq_none _ _).mpr h
        rw [hzr] at h2
        exact Option.noConfusion h2
  · intro r hzr
    dsimp only
    rw [me_compute_some _ _ _ _ hzr]
    exact ⟨rfl, fun s hs => by rw [hs]; rfl⟩

/-- **C5.** A successful state put stores exactly
`{username, updatedAt := now, data := new data if provided else previous data,
bestScore := previous bestScore}`: the endpoint never changes `bestScore`, and
an omitted `data` preserves the previous value. -/
theorem statePut_merge (store : Store) (p u : String) (dataF : Option JValue)
    (now : Int) (st : StoredState) (store' : Store)
    (hu : u ≠ "anonymous")
    (hrun : apiStatePost store (some p) (some u) dataF now = (.ok st, store')) :
    st = { username := u
           updatedAt := now
           data := dataF.or ((store.states (stateKey p u)).bind (·.data))
           bestScore := (store.states (stateKey p u)).bind (·.bestScore) } ∧
    store'.states (stateKey p u) = some st := by
  have hgood : badDataField dataF = false := by
    by_contra hbad
    rw [Bool.not_eq_false] at hbad
    simp only [apiStatePost, getUsername_some] at hrun
    rw [if_neg hu, if_pos hbad] at hrun
    injection hrun with h1 h2
    exact HResp.noConfusion h1
  rw [apiStatePost_eq store p u dataF now hu hgood] at hrun
  injection hrun with h1 h2
  injection h1 with h1
  subst h1
  subst h2
  constructor
  · cases dataF with
    | none => rfl
    | some v => rfl
  · rw [Store.states_setState, if_pos rfl]

/-- The put validation characterized on a present `data` value: it rejects
exactly the primitives and `null`; arrays pass because JavaScript
`typeof [] === "object"`. -/
theorem badDataField_eq_true_iff (v : JValue) :
    badDataField (some v) = true ↔ (jsTypeof v ≠ "object" ∨ v = JValue.null) := by
  cases v with
  | null => exact iff_of_true rfl (Or.inr rfl)
  | bool b =>
    exact iff_of_true rfl (Or.inl (show ("boolean" : String) ≠ "object" from by decide))
  | num q =>
    exact iff_of_true rfl (Or.inl (show ("number" : String) ≠ "object" from by decide))
  | str s =>
    exact iff_of_true rfl (Or.inl (show ("string" : String) ≠ "object" from by decide))
  | arr xs =>
    apply iff_of_false
    · rw [show badDataField (some (.arr xs)) = false from rfl]
      exact Bool.false_ne_true
    · rintro (h | h)
      · exact h rfl
      · exact JValue.noConfusion h
  | obj fs =>
    apply iff_of_false
    · rw [show badDataField (some (.obj fs)) = false from rfl]
      exact Bool.false_ne_true
    · rintro (h | h)
      · exact h rfl
      · exact JValue.noConfusion h

/-- **C4 (amended).** A present `data` value that is a primitive or `null` is
rejected with a 400 and nothing is written; an omitted `data`, an object —
or an array, since JavaScript `typeof [] === "object"` and the handler checks
nothing further — passes the validation and the request succeeds. -/
theorem statePost_data_validation (store : Store) (p u : String) (dataF : Option JValue)
    (now : Int) (hu : u ≠ "anonymous") :
    ((∃ v, dataF = some v ∧ (jsTypeof v ≠ "object" ∨ v = JValue.null)) →
      apiStatePost store (some p) (some u) dataF now =
        (.err 400 "data must be an object", store)) ∧
    ((dataF = none ∨ ∃ v, dataF = some v ∧ jsTypeof v = "object" ∧ v ≠ JValue.null) →
      ∃ st, (apiStatePost store (some p) (some u) dataF now).1 = .ok st) := by
  constructor
  · rintro ⟨v, rfl, hbadv⟩
    have hbad : badDataField (some v) = true := (badDataField_eq_true_iff v).mpr hbadv
    simp only [apiStatePost, getUsername_some]
    rw [if_neg hu, if_pos hbad]
  · intro hok
    have hgood : badDataField dataF = false := by
      rcases hok with rfl | ⟨v, rfl, hty, hnn⟩
      · rfl
      · rw [Bool.eq_false_iff]
        intro hbad
        rcases (badDataField_eq_true_iff v).mp hbad with h | h
        · exact h hty
        · exact hnn h
    rw [apiStatePost_eq store p u dataF now hu hgood]
    exact ⟨_, rfl⟩

/-- **C4 (counterexample to the claim as stated).** A request whose `data` is
an array does NOT fail with 400: it succeeds and writes the array into the
store. -/
theorem statePost_array_accepted :
    apiStatePost Store.empty (some "p1") (some "alice") (some (.arr [])) 0 =
      (.ok { username := "alice", updatedAt := 0, data := some (.arr []),
             bestScore := none },
       Store.empty.setState (stateKey "p1" "alice")
         { username := "alice", updatedAt := 0, data := some (.arr []),
           bestScore := none }) := rfl

/-- The value component of an `enum` element belongs to the list. -/
theorem snd_mem_of_mem_enum {α : Type} {l : List α} {pr : ℕ × α}
    (h : pr ∈ l.enum) : pr.2 ∈ l := by
  rw [List.mem_enum_iff_getElem?] at h
  obtain ⟨hi, he⟩ := List.getElem?_eq_some.mp h
  exact he ▸ List.getElem_mem hi

/-- **C9.** Daily sets are keyed by postId and the UTC day label; a submit
under clock `c` writes no daily set other than day `getUtcDayInteger c`'s, so
a query defaulting its scope to a different UTC day neither lists the
submitting user in `top` nor finds a `me` entry, as long as the user was not
already in that day's set. -/
theorem daily_scope_reset (store : Store) (p u : String) (q : JSNum) (c c' : Clock)
    (limitP : Option Int) (out : ScoreOut) (store' : Store) (lout : LeaderboardOut)
    (hu : u ≠ "anonymous")
    (hrun : apiScorePost store (some p) (some u) (some (.num q)) c = (.ok out, store'))
    (hday : getUtcDayInteger c' ≠ getUtcDayInteger c)
    (habs : (store.zsets (dailyLeaderboardKey p (getUtcDayInteger c'))).zscore u = none)
    (hrun' : apiLeaderboardGet store' (some p) (some u) limitP none c' = .ok lout) :
    out.dateBucket = getUtcDayInteger c ∧
    (∀ d, d ≠ getUtcDayInteger c →
      store'.zsets (dailyLeaderboardKey p d) = store.zsets (dailyLeaderboardKey p d)) ∧
    (∀ t ∈ lout.top, t.username ≠ u) ∧
    lout.me = none := by
  rw [apiScorePost_eq store p u q c hu] at hrun
  injection hrun with h1 h2
  injection h1 with h1
  subst h1
  subst h2
  have hframe : ∀ d, d ≠ getUtcDayInteger c →
      ∀ g dz : ZSet, ∀ v : StoredState,
      (((store.setZ (leaderboardKey p) g).setZ
          (dailyLeaderboardKey p (getUtcDayInteger c)) dz).setState (stateKey p u) v).zsets
        (dailyLeaderboardKey p d) = store.zsets (dailyLeaderboardKey p d) := by
    intro d hd g dz v
    exact Store.zsets_submit_other _ _ _ _ _ _ _ _
      (Ne.symm (leaderboardKey_ne_dailyLeaderboardKey p d))
      (dailyLeaderboardKey_inj p hd)
  refine ⟨rfl, fun d hd => hframe d hd _ _ _, ?_, ?_⟩
  · intro t ht
    simp only [apiLeaderboardGet, getUsername_some, Option.getD_none] at hrun'
    injection hrun' with h
    subst h
    dsimp only at ht
    rw [hframe (getUtcDayInteger c') hday _ _ _] at ht
    obtain ⟨pr, hpr, rfl⟩ := List.mem_map.mp ht
    have hmem : pr.2 ∈ store.zsets (dailyLeaderboardKey p (getUtcDayInteger c')) :=
      ZSet.mem_of_mem_zrange (snd_mem_of_mem_enum hpr)
    have hne := (ZSet.zscore_eq_none_iff _ _).mp habs pr.2 hmem
    exact hne
  · simp only [apiLeaderboardGet, getUsername_some, Option.getD_none] at hrun'
    injection hrun' with h
    subst h
    dsimp only
    rw [hframe (getUtcDayInteger c') hday _ _ _]
    exact me_compute_none _ _ _
      ((ZSet.zrank_eq_none_iff_zscore_eq_none _ _).mpr habs)

/-- **C10.** A null identity resolves to the literal username "anonymous".
The state get endpoint performs no authorization check: an unauthenticated
caller is served whatever record sits under the key derived from
"anonymous" (200 when present, 404 when absent).  The state put and score
endpoints reject with 401 exactly the callers whose resolved username is the
string "anonymous" — including an authenticated user literally named
"anonymous". -/
theorem anonymous_identity_handling (store : Store) (p : String) (idn : Option String)
    (dataF : Option JValue) (now : Int) (scoreF : Option JValue) (c : Clock) :
    getUsername none = "anonymous" ∧
    apiStateGet store (some p) none =
      (match store.states (stateKey p "anonymous") with
        | none => .err 404 "No state found"
        | some st => .ok st) ∧
    ((apiStatePost store (some p) idn dataF now).1 = .err 401 "Login required" ↔
      getUsername idn = "anonymous") ∧
    ((apiScorePost store (some p) idn scoreF c).1 = .err 401 "Login required" ↔
      getUsername idn = "anonymous") := by
  refine ⟨rfl, rfl, ?_, ?_⟩
  · by_cases hA : getUsername idn = "anonymous"
    · simp only [apiStatePost]
      rw [if_pos hA]
      exact iff_of_true rfl hA
    · simp only [apiStatePost]
      rw [if_neg hA]
      apply iff_of_false _ hA
      by_cases hbad : badDataField dataF = true
      · rw [if_pos hbad]
        intro h
        injection h with h400 hmsg
        exact absurd h400 (by decide)
      · rw [if_neg hbad]
        intro h
        exact HResp.noConfusion h
  · by_cases hA : getUsername idn = "anonymous"
    · simp only [apiScorePost]
      rw [if_pos hA]
      exact iff_of_true rfl hA
    · simp only [apiScorePost]
      rw [if_neg hA]
      apply iff_of_false _ hA
      cases hsv : numValue scoreF with
      | none =>
        intro h
        injection h with h400 hmsg
        exact absurd h400 (by decide)
      | some sq =>
        intro h
        exact HResp.noConfusion h

/-- **C1.** Code-bug evidence: after alice submits 500 and bob submits 700 on
the same UTC day for post `p1`, the leaderboard query with `limit = 1` returns
the ASCENDING head of the daily set — rank 1 is assigned to alice with 500,
the LOWEST scorer — not `[{rank 1, bob, 700}]` as the top-N contract requires.
-/
theorem lb_top_limit1_returns_lowest :
    apiLeaderboardGet demoStore₂ (some "p1") (some "alice") (some 1) none demoClock =
      .ok { top := [{ rank := 1, username := "alice", score := 500, date := "20240503" }]
            me := some { rank := 2, username := "alice", score := 500, date := "20240503" }
            totalPlayers := 2
            generatedAt := 1000
            filterDate := "20240503" } := by
  rfl

/-! ## Witnesses: the claims instantiated at the demonstration runs -/

/-- C2 at a concrete input: alice resubmits 300 after her best of 500; the
stored global best stays `max(500, 300) = 500` and never decreases. -/
theorem submit_stores_max_global_witness :
    ((apiScorePost demoStore₂ (some "p1") (some "alice") (some (.num 300))
        demoClock).2.zsets (leaderboardKey "p1")).zscore "alice" =
      some (max (((demoStore₂.zsets (leaderboardKey "p1")).zscore "alice").getD (-1))
                (max 0 (min 300 1000000000))) ∧
    ∀ s₀, (demoStore₂.zsets (leaderboardKey "p1")).zscore "alice" = some s₀ →
      ∃ s₁, ((apiScorePost demoStore₂ (some "p1") (some "alice") (some (.num 300))
          demoClock).2.zsets (leaderboardKey "p1")).zscore "alice" = some s₁ ∧ s₀ ≤ s₁ :=
  submit_stores_max_global demoStore₂ "p1" "alice" 300 demoClock _
    (apiScorePost demoStore₂ (some "p1") (some "alice") (some (.num 300)) demoClock).2
    (by decide) (by norm_num) rfl

/-- C3 at a concrete input: bob's first submission of 700 (no prior record)
reports `isNewBest = true`, and the strict-inequality characterization holds.
-/
theorem submit_isNewBest_iff_witness :
    (({ success := true, score := 700, rank := 1, totalPlayers := 2, isNewBest := true,
        updatedAt := 1000, dateBucket := "20240503" } : ScoreOut).isNewBest = true ↔
      ((demoStore₁.zsets (leaderboardKey "p1")).zscore "bob").getD (-1) <
        max 0 (min 700 1000000000)) ∧
    ((demoStore₁.zsets (leaderboardKey "p1")).zscore "bob" = none →
      ({ success := true, score := 700, rank := 1, totalPlayers := 2, isNewBest := true,
         updatedAt := 1000, dateBucket := "20240503" } : ScoreOut).isNewBest = true) :=
  submit_isNewBest_iff demoStore₁ "p1" "bob" 700 demoClock
    { success := true, score := 700, rank := 1, totalPlayers := 2, isNewBest := true,
      updatedAt := 1000, dateBucket := "20240503" }
    demoStore₂ (by decide) rfl

/-- C8 at a concrete input: bob's 700 beats alice's 500, and his returned rank
is 1 (= totalPlayers − ascendingRank = 2 − 1). -/
theorem submit_rank_desc_witness :
    (∃ r, (demoStore₂.zsets (leaderboardKey "p1")).zrank "bob" = some r ∧
        ({ success := true, score := 700, rank := 1, totalPlayers := 2, isNewBest := true,
           updatedAt := 1000, dateBucket := "20240503" } : ScoreOut).totalPlayers =
          (demoStore₂.zsets (leaderboardKey "p1")).zcard ∧
        ({ success := true, score := 700, rank := 1, totalPlayers := 2, isNewBest := true,
           updatedAt := 1000, dateBucket := "20240503" } : ScoreOut).rank =
          (({ success := true, score := 700, rank := 1, totalPlayers := 2, isNewBest := true,
              updatedAt := 1000, dateBucket := "20240503" } : ScoreOut).totalPlayers : Int) -
            (r : Int)) ∧
    ((∀ e ∈ demoStore₁.zsets (leaderboardKey "p1"), e.member ≠ "bob" →
        e.score < ({ success := true, score := 700, rank := 1, totalPlayers := 2,
                     isNewBest := true, updatedAt := 1000,
                     dateBucket := "20240503" } : ScoreOut).score) →
      ({ success := true, score := 700, rank := 1, totalPlayers := 2, isNewBest := true,
         updatedAt := 1000, dateBucket := "20240503" } : ScoreOut).rank = 1) :=
  submit_rank_desc demoStore₁ "p1" "bob" 700 demoClock
    { success := true, score := 700, rank := 1, totalPlayers := 2, isNewBest := true,
      updatedAt := 1000, dateBucket := "20240503" }
    demoStore₂ (by decide) rfl

/-- C6 at concrete inputs: bob's submit reports the global cardinality (2),
while alice's daily query reports the daily set's cardinality. -/
theorem totalPlayers_scopes_witness :
    ({ success := true, score := 700, rank := 1, totalPlayers := 2, isNewBest := true,
       updatedAt := 1000, dateBucket := "20240503" } : ScoreOut).totalPlayers =
      (demoStore₂.zsets (leaderboardKey "p1")).zcard ∧
    ({ top := [{ rank := 1, username := "alice", score := 500, date := "20240503" }]
       me := some { rank := 2, username := "alice", score := 500, date := "20240503" }
       totalPlayers := 2
       generatedAt := 1000
       filterDate := "20240503" } : LeaderboardOut).totalPlayers =
      (demoStore₂.zsets
        (dailyLeaderboardKey "p1" ((none : Option String).getD
          (getUtcDayInteger demoClock)))).zcard :=
  totalPlayers_scopes demoStore₁ "p1" "bob" 700 demoClock
    { success := true, score := 700, rank := 1, totalPlayers := 2, isNewBest := true,
      updatedAt := 1000, dateBucket := "20240503" }
    demoStore₂
    demoStore₂ "p1" (some "alice") (some 1) none demoClock
    { top := [{ rank := 1, username := "alice", score := 500, date := "20240503" }]
      me := some { rank := 2, username := "alice", score := 500, date := "20240503" }
      totalPlayers := 2
      generatedAt := 1000
      filterDate := "20240503" }
    (by decide) rfl rfl

/-- C7 at a concrete input: alice queries after alice(500) and bob(700); she is
a member, so `me` is present with rank `2 = total − ascendingRank` and her
stored score 500. -/
theorem lb_me_rank_witness :
    (({ top := [{ rank := 1, username := "alice", score := 500, date := "20240503" }]
        me := some { rank := 2, username := "alice", score := 500, date := "20240503" }
        totalPlayers := 2
        generatedAt := 1000
        filterDate := "20240503" } : LeaderboardOut).me = none ↔
      (demoStore₂.zsets (dailyLeaderboardKey "p1"
        ((none : Option String).getD (getUtcDayInteger demoClock)))).zscore "alice" =
        none) ∧
    (∀ r, (demoStore₂.zsets (dailyLeaderboardKey "p1"
        ((none : Option String).getD (getUtcDayInteger demoClock)))).zrank "alice" =
        some r →
      ({ top := [{ rank := 1, username := "alice", score := 500, date := "20240503" }]
         me := some { rank := 2, username := "alice", score := 500, date := "20240503" }
         totalPlayers := 2
         generatedAt := 1000
         filterDate := "20240503" } : LeaderboardOut).me = some
        { rank := ((demoStore₂.zsets (dailyLeaderboardKey "p1"
              ((none : Option String).getD (getUtcDayInteger demoClock)))).zcard : Int) -
            (r : Int)
          username := "alice"
          score := ((demoStore₂.zsets (dailyLeaderboardKey "p1"
              ((none : Option String).getD (getUtcDayInteger demoClock)))).zscore
              "alice").getD 0
          date := (none : Option String).getD (getUtcDayInteger demoClock) } ∧
      ∀ s, (demoStore₂.zsets (dailyLeaderboardKey "p1"
          ((none : Option String).getD (getUtcDayInteger demoClock)))).zscore "alice" =
          some s →
        ((demoStore₂.zsets (dailyLeaderboardKey "p1"
            ((none : Option String).getD (getUtcDayInteger demoClock)))).zscore
            "alice").getD 0 = s) :=
  lb_me_rank demoStore₂ "p1" "alice" (some 1) none demoClock
    { top := [{ rank := 1, username := "alice", score := 500, date := "20240503" }]
      me := some { rank := 2, username := "alice", score := 500, date := "20240503" }
      totalPlayers := 2
      generatedAt := 1000
      filterDate := "20240503" }
    rfl

/-- C5 at a concrete input: alice's first put stores her payload with
`bestScore` absent and `updatedAt` the request time. -/
theorem statePut_merge_witness :
    ({ username := "alice", updatedAt := 5,
       data := some (.obj [("lvl", .num 3)]), bestScore := none } : StoredState) =
      { username := "alice"
        updatedAt := 5
        data := (some (JValue.obj [("lvl", .num 3)])).or
          ((Store.empty.states (stateKey "p1" "alice")).bind (·.data))
        bestScore := (Store.empty.states (stateKey "p1" "alice")).bind (·.bestScore) } ∧
    (Store.empty.setState (stateKey "p1" "alice")
        { username := "alice", updatedAt := 5,
          data := some (.obj [("lvl", .num 3)]), bestScore := none }).states
      (stateKey "p1" "alice") =
      some { username := "alice", updatedAt := 5,
             data := some (.obj [("lvl", .num 3)]), bestScore := none } :=
  statePut_merge Store.empty "p1" "alice" (some (.obj [("lvl", .num 3)])) 5
    { username := "alice", updatedAt := 5,
      data := some (.obj [("lvl", .num 3)]), bestScore := none }
    (Store.empty.setState (stateKey "p1" "alice")
      { username := "alice", updatedAt := 5,
        data := some (.obj [("lvl", .num 3)]), bestScore := none })
    (by decide) rfl

/-- C4 (amended) at a concrete input: a string-valued `data` is rejected with
400 and no write, while an object or array passes. -/
theorem statePost_data_validation_witness :
    ((∃ v, (some (JValue.str "nope") : Option JValue) = some v ∧
        (jsTypeof v ≠ "object" ∨ v = JValue.null)) →
      apiStatePost Store.empty (some "p1") (some "alice") (some (.str "nope")) 0 =
        (.err 400 "data must be an object", Store.empty)) ∧
    (((some (JValue.str "nope") : Option JValue) = none ∨
        ∃ v, (some (JValue.str "nope") : Option JValue) = some v ∧
          jsTypeof v = "object" ∧ v ≠ JValue.null) →
      ∃ st, (apiStatePost Store.empty (some "p1") (some "alice")
          (some (.str "nope")) 0).1 = .ok st) :=
  statePost_data_validation Store.empty "p1" "alice" (some (.str "nope")) 0 (by decide)

/-- C9 at concrete inputs: alice submits 500 on 2024-05-03; a default-scoped
query on 2024-05-04 lists nobody and returns `me = null`. -/
theorem daily_scope_reset_witness :
    ({ success := true, score := 500, rank := 1, totalPlayers := 1, isNewBest := true,
       updatedAt := 1000, dateBucket := "20240503" } : ScoreOut).dateBucket =
      getUtcDayInteger demoClock ∧
    (∀ d, d ≠ getUtcDayInteger demoClock →
      demoStore₁.zsets (dailyLeaderboardKey "p1" d) =
        Store.empty.zsets (dailyLeaderboardKey "p1" d)) ∧
    (∀ t ∈ ({ top := [], me := none, totalPlayers := 0, generatedAt := 2000,
              filterDate := "20240504" } : LeaderboardOut).top,
      t.username ≠ "alice") ∧
    ({ top := [], me := none, totalPlayers := 0, generatedAt := 2000,
       filterDate := "20240504" } : LeaderboardOut).me = none :=
  daily_scope_reset Store.empty "p1" "alice" 500 demoClock demoClockNext (some 10)
    { success := true, score := 500, rank := 1, totalPlayers := 1, isNewBest := true,
      updatedAt := 1000, dateBucket := "20240503" }
    demoStore₁
    { top := [], me := none, totalPlayers := 0, generatedAt := 2000,
      filterDate := "20240504" }
    (by decide) rfl (by decide) rfl rfl
